import Mathlib

/-!
Verification of the tag relationship and trending subsystem of the
cisdi-test-cms repository (Go), against its natural-language specification.

The Go code is shallowly embedded: the corpus-statistics queries of
`repositories/article_repository.go` are modelled by their result values
(an `Option` models the `(value, error)` return convention: `none` is a
query failure), Go `int` / `int64` become `ℤ`, Go `float64` arithmetic is
modelled over `ℝ` with `Real.log` / `Real.exp`, and Go `time.Time`
timestamps become real numbers measured in hours (so that
`time.Since(t).Hours() / 24` becomes `(now - t) / 24`).

Go map lookups `m[k]` on `map[string]int` default to `0` for missing keys,
so those maps are embedded as total functions `String → ℤ`; the
`count, exists := m[k]` lookup on `map[uint]int` is embedded as
`ℕ → Option ℤ`.
-/

/- ############################################################
   Section 1: the relationship scorer
   (services/tag_service.go, CalculateTagRelationshipScore, lines 403-498)
   ############################################################ -/

/-- Results of the three corpus-statistics queries consumed by the pair loop
of `CalculateTagRelationshipScore`: `GetTotalArticleCount` (an `int64`
count), `GetTagFrequencies` (a `map[string]int`, zero for missing keys) and
`GetTagPairCoOccurrences` (a `map[string]int` keyed by the canonical
`min|max` string, zero for missing keys). -/
structure CorpusStats where
  totalArticles : ℤ
  tagFreq : String → ℤ
  coOccur : String → ℤ

/-- Embedding of the `minString` helper closure of
`CalculateTagRelationshipScore` (tag_service.go line 445): `if a < b { return a }; return b`. -/
def minString (a b : String) : String := if a < b then a else b

/-- Embedding of the `maxString` helper closure of
`CalculateTagRelationshipScore` (tag_service.go line 451): `if a > b { return a }; return b`. -/
def maxString (a b : String) : String := if a > b then a else b

/-- Embedding of the map-key construction at tag_service.go line 464:
`fmt.Sprintf("%s|%s", minString(tag1, tag2), maxString(tag1, tag2))`. -/
def pairKey (a b : String) : String := minString a b ++ "|" ++ maxString a b

/-- Index pairs `i < j` of a list, in the visiting order of the double loop
at tag_service.go lines 458-459 (`for i ...; for j := i+1 ...`). -/
def strictPairs {α : Type} : List α → List (α × α)
  | [] => []
  | t :: rest => rest.map (fun u => (t, u)) ++ strictPairs rest

/-- Skip condition of the pair loop (tag_service.go line 473):
`freqA == 0 || freqB == 0 || coOccur == 0`.  The Go code first converts the
`int` counts to `float64` and compares the floats with `0`; since
`float64(k) == 0` exactly when the integer `k == 0`, the test is taken on
the integer counts. -/
def pairSkipped (stats : CorpusStats) (p : String × String) : Bool :=
  stats.tagFreq p.1 == 0 || stats.tagFreq p.2 == 0 ||
    stats.coOccur (pairKey p.1 p.2) == 0

/-- PMI value of one non-skipped pair, mirroring tag_service.go lines
465-481: `pTag1 := freqA / totalArticlesF`, `pTag2 := freqB / totalArticlesF`,
`pBoth := coOccur / totalArticlesF`, `pmi := math.Log(pBoth / (pTag1 * pTag2))`. -/
noncomputable def pmiOfPair (stats : CorpusStats) (p : String × String) : ℝ :=
  let totalArticlesF : ℝ := (stats.totalArticles : ℝ)
  let freqA : ℝ := (stats.tagFreq p.1 : ℝ)
  let freqB : ℝ := (stats.tagFreq p.2 : ℝ)
  let coOccur : ℝ := (stats.coOccur (pairKey p.1 p.2) : ℝ)
  let pTag1 := freqA / totalArticlesF
  let pTag2 := freqB / totalArticlesF
  let pBoth := coOccur / totalArticlesF
  Real.log (pBoth / (pTag1 * pTag2))

/-- One iteration of the pair loop body (tag_service.go lines 460-490),
threading the `scoreSum` / `pairCount` accumulators: a pair with a zero
factor is skipped (`continue`), otherwise its PMI is added to the sum and
the pair counter is incremented. -/
noncomputable def pairStep (stats : CorpusStats) (acc : ℝ × ℕ) (p : String × String) :
    ℝ × ℕ :=
  if pairSkipped stats p then acc
  else (acc.1 + pmiOfPair stats p, acc.2 + 1)

/-- The full double loop of tag_service.go lines 441-491, starting from
`scoreSum := 0.0` and `pairCount := 0`. -/
noncomputable def scoreLoop (stats : CorpusStats) (tags : List String) : ℝ × ℕ :=
  (strictPairs tags).foldl (pairStep stats) (0, 0)

/-- Embedding of `CalculateTagRelationshipScore` (tag_service.go lines
403-498).  Each repository query result is an `Option`; `none` models a
returned error, on which the function logs and returns `0.0`.  After the
queries: fewer than 2 tags returns `0.0`, a zero pair count returns `0.0`,
otherwise the result is `scoreSum / float64(pairCount)`. -/
noncomputable def CalculateTagRelationshipScore (tagsRes : Option (List String))
    (totalRes : Option ℤ) (freqRes : Option (String → ℤ))
    (coRes : Option (String → ℤ)) : ℝ :=
  match tagsRes with
  | none => 0
  | some tags =>
    if tags.length < 2 then 0
    else
      match totalRes with
      | none => 0
      | some totalArticles =>
        match freqRes with
        | none => 0
        | some tagFreq =>
          match coRes with
          | none => 0
          | some coOccurMap =>
            let r := scoreLoop ⟨totalArticles, tagFreq, coOccurMap⟩ tags
            if r.2 = 0 then 0 else r.1 / (r.2 : ℝ)

/-- The scorer on a successful snapshot of the three statistics queries and
a successfully fetched tag list. -/
noncomputable def scoreFromStats (stats : CorpusStats) (tags : List String) : ℝ :=
  CalculateTagRelationshipScore (some tags) (some stats.totalArticles)
    (some stats.tagFreq) (some stats.coOccur)

/- ############################################################
   Section 2: the trending updater
   (services/tag_service.go, updateTagUsageCounts, lines 570-622,
    and floatAlmostEqual, lines 619-622)
   ############################################################ -/

/-- Embedding of the `models.Tag` row (models, `type Tag struct`): id,
unique name, cached `usage_count` (Go `int`), `trending_score`
(Go `float64`) and the `updated_at` timestamp (here a real number of
hours). -/
structure Tag where
  id : ℕ
  name : String
  usageCount : ℤ
  trendingScore : ℝ
  updatedAt : ℝ

/-- Embedding of `floatAlmostEqual` (tag_service.go lines 619-622):
`math.Abs(a-b) < epsilon` with `epsilon = 0.000001`. -/
def floatAlmostEqual (a b : ℝ) : Prop := |a - b| < 1 / 1000000

/-- Trending score formula of tag_service.go line 597:
`float64(newCount) * math.Exp(-ageInDays/decayFactor)` with
`decayFactor = 7.0`. -/
noncomputable def trendingScoreOf (newCount : ℤ) (ageInDays : ℝ) : ℝ :=
  (newCount : ℝ) * Real.exp (-ageInDays / 7)

open scoped Classical in
/-- Per-tag body of the `for i := range allTags` loop of
`updateTagUsageCounts` (tag_service.go lines 586-611).  Returns the tag
record as left by the loop body together with the dirty flag (whether it
was appended to `tagsToUpdate`).  The Go statements are mirrored in order;
in particular `currentTag.UsageCount = newCount` is executed before the
check `newCount > currentTag.UsageCount` that guards the
`currentTag.UpdatedAt = time.Now()` reset. -/
noncomputable def updateOneTag (tagCounts : ℕ → Option ℤ) (now : ℝ) (t : Tag) :
    Tag × Bool :=
  let newCount : ℤ := (tagCounts t.id).getD 0
  let ageInDays : ℝ := (now - t.updatedAt) / 24
  let newTrendingScore : ℝ := trendingScoreOf newCount ageInDays
  if newCount ≠ t.usageCount ∨ ¬ floatAlmostEqual newTrendingScore t.trendingScore then
    let t1 := { t with usageCount := newCount }
    let t2 := { t1 with trendingScore := newTrendingScore }
    -- source comment: "Reset updated_at kalau ada usage baru"
    let t3 := if newCount > t2.usageCount then { t2 with updatedAt := now } else t2
    (t3, true)
  else (t, false)

/-- Embedding of `updateTagUsageCounts` (tag_service.go lines 570-616).
The two repository queries (`CountArticlesByTag`, returning the
published-usage mapping `map[uint]int`, and `tagRepo.GetAll`) may fail
(`none`), on which the function returns early with no write.  The result is
the `tagsToUpdate` slice passed to `BulkUpdate` — the complete set of rows
written by the refresh (nothing is written when it is empty, matching the
`len(tagsToUpdate) > 0` guard). -/
noncomputable def updateTagUsageCounts (tagCountsRes : Option (ℕ → Option ℤ))
    (allTagsRes : Option (List Tag)) (now : ℝ) : List Tag :=
  match tagCountsRes with
  | none => []
  | some tagCounts =>
    match allTagsRes with
    | none => []
    | some allTags =>
      ((allTags.map (updateOneTag tagCounts now)).filter (fun r => r.2)).map
        (fun r => r.1)

/-- Tag-store contents after a successful refresh pass: every dirty tag is
replaced by its recomputed row (`BulkUpdate` writes exactly those), every
clean tag is untouched — and the loop body leaves clean tags unchanged, so
the post-state is pointwise `(updateOneTag ...).1`. -/
noncomputable def refreshedTags (tagCounts : ℕ → Option ℤ) (now : ℝ)
    (allTags : List Tag) : List Tag :=
  allTags.map (fun t => (updateOneTag tagCounts now t).1)

/- ############################################################
   Section 3: reaching a division by zero in the scorer
   ############################################################ -/

/-- Control-flow predicate: the pair loop of
`CalculateTagRelationshipScore` reaches the divisions
`freqA / totalArticlesF` (tag_service.go line 477) with
`totalArticlesF = 0`.  This happens exactly when the function gets past the
`len(tags) < 2` early return with a zero total count and some pair passes
the zero-factor skip test — the Go source has no `N = 0` early return. -/
def divisionByZeroOnPath (total : ℤ) (tagFreq coOccurMap : String → ℤ)
    (tags : List String) : Prop :=
  2 ≤ tags.length ∧ total = 0 ∧
    ∃ p ∈ strictPairs tags, pairSkipped ⟨total, tagFreq, coOccurMap⟩ p = false

/- ############################################################
   Section 4: the scorer as the specification words it
   (spec.md section 4.1, steps 1-7)
   ############################################################ -/

/-- Specification-side PMI formula (spec.md section 4.1 step 5):
`pmi(a,b) = ln( (coOccur(a,b)/N) / ((freq(a)/N) * (freq(b)/N)) )`, with the
co-occurrence looked up at the canonical `(min(a,b), max(a,b))` key. -/
noncomputable def specPairPMI (stats : CorpusStats) (a b : String) : ℝ :=
  Real.log (((stats.coOccur (pairKey a b) : ℝ) / (stats.totalArticles : ℝ)) /
    (((stats.tagFreq a : ℝ) / (stats.totalArticles : ℝ)) *
      ((stats.tagFreq b : ℝ) / (stats.totalArticles : ℝ))))

/-- Specification-side validity of a pair (spec.md section 4.1 step 5): all
of `freq(a)`, `freq(b)` and `coOccur(a,b)` are nonzero. -/
def specPairValid (stats : CorpusStats) (a b : String) : Bool :=
  stats.tagFreq a != 0 && stats.tagFreq b != 0 && stats.coOccur (pairKey a b) != 0

/-- Specification-side score (spec.md section 4.1, steps 1-7): `0.0` for
fewer than 2 tags; otherwise the arithmetic mean of the PMI values over the
unordered pairs `(a, b)` with `a ≠ b` drawn from the tag set whose three
factors are all nonzero (each unordered pair considered once — for a
duplicate-free tag list these are exactly the index pairs `i < j`); `0.0`
when every pair is skipped. -/
noncomputable def specScore (stats : CorpusStats) (tags : List String) : ℝ :=
  if tags.length < 2 then 0
  else
    let valid := (strictPairs tags).filter
      (fun p => p.1 != p.2 && specPairValid stats p.1 p.2)
    if valid.length = 0 then 0
    else (valid.map (fun p => specPairPMI stats p.1 p.2)).sum / (valid.length : ℝ)

/- ############################################################
   Section 5: article and version creation around the scorer
   (services/tag_service.go, CreateArticle lines 100-153 and
    CreateArticleVersion lines 197-255)
   ############################################################ -/

/-- Embedding of an `article_versions` row, keeping the fields the claims
need: version number, attached tag names and the persisted
`article_tag_relationship_score`. -/
structure VersionRow where
  versionNumber : ℤ
  tags : List String
  score : ℝ

/-- State of one article and its versions: `latestVersionId` is the
`latest_version_id` column, `versions` maps a version id to its row
(`none` when absent). -/
structure ArticleDB where
  latestVersionId : ℕ
  versions : ℕ → Option VersionRow

/-- Tag names of a version, sorted by name, as the `ORDER BY t.name` of the
`GetTagsForArticle` SQL query returns them. -/
def sortNames (l : List String) : List String := l.mergeSort (fun a b => a ≤ b)

/-- Embedding of `GetTagsForArticle`
(repositories/article_repository.go lines 219-242): the tag names of the
version joined through `articles.latest_version_id`, sorted by name; an
article or version that does not resolve yields an empty row set, hence an
empty list (not an error). -/
def GetTagsForArticle (db : ArticleDB) : List String :=
  match db.versions db.latestVersionId with
  | none => []
  | some v => sortNames v.tags

/-- Embedding of `CreateArticleVersion` (tag_service.go lines 197-255),
restricted to the steps that touch the score and the version rows.  The
corpus-statistics queries are abstracted as a function `statsOf` of the
current database state.  Mirroring the source order: the relationship score
is computed (line 238) BEFORE the new version row is inserted (line 240)
and before `latest_version_id` is repointed (line 245), so the scorer reads
the pre-insert state. -/
noncomputable def CreateArticleVersion (statsOf : ArticleDB → CorpusStats)
    (db : ArticleDB) (reqTags : List String) (newId : ℕ)
    (nextVersionNumber : ℤ) : ArticleDB × VersionRow :=
  let score := scoreFromStats (statsOf db) (GetTagsForArticle db)
  let v : VersionRow := ⟨nextVersionNumber, reqTags, score⟩
  let db1 : ArticleDB :=
    { db with versions := fun i => if i = newId then some v else db.versions i }
  let db2 : ArticleDB := { db1 with latestVersionId := newId }
  (db2, v)

/-- Intermediate state of `CreateArticle` (tag_service.go lines 100-137)
after the first version row is inserted with a zero-valued score and
`latest_version_id` already points at it, but before the score update. -/
def createArticleInsert (reqTags : List String) (newId : ℕ) : ArticleDB :=
  ⟨newId, fun i => if i = newId then some ⟨1, reqTags, 0⟩ else none⟩

/-- Embedding of `CreateArticle` (tag_service.go lines 100-153), restricted
to the steps that touch the score and the version rows.  Mirroring the
source order: article and first version are created and
`latest_version_id` is set (lines 123-136) BEFORE the score is computed
(line 140) and written onto the version (line 144), so the scorer reads the
post-insert state in which the latest version is the new one. -/
noncomputable def CreateArticle (statsOf : ArticleDB → CorpusStats)
    (reqTags : List String) (newId : ℕ) : ArticleDB × VersionRow :=
  let db1 := createArticleInsert reqTags newId
  let score := scoreFromStats (statsOf db1) (GetTagsForArticle db1)
  let v1 : VersionRow := ⟨1, reqTags, score⟩
  let db2 : ArticleDB :=
    { db1 with versions := fun i => if i = newId then some v1 else db1.versions i }
  (db2, v1)

/- ############################################################
   Section 5b: auxiliary definitions used by claim statements
   ############################################################ -/

/-- Variant of the scorer in which the pair loop visits only the index
pairs whose two tag names differ; used to state the amended
duplicate-tolerance claim (the loop as written visits every index pair,
and self-pairs are only dropped because the co-occurrence map carries no
self key). -/
noncomputable def scoreLoopDistinctNames (stats : CorpusStats)
    (tags : List String) : ℝ × ℕ :=
  ((strictPairs tags).filter (fun p => p.1 != p.2)).foldl (pairStep stats) (0, 0)

/-- Score computed from `scoreLoopDistinctNames` with the same fallbacks as
`CalculateTagRelationshipScore`. -/
noncomputable def scoreDistinctNamePairs (stats : CorpusStats)
    (tags : List String) : ℝ :=
  if tags.length < 2 then 0
  else
    let r := scoreLoopDistinctNames stats tags
    if r.2 = 0 then 0 else r.1 / (r.2 : ℝ)

/-- Corpus snapshot of the spec.md section 8 scenario: 4 articles, tag go
on 3 of them, tag api on 2, both together on 2. -/
def exampleStats : CorpusStats :=
  ⟨4, fun t => if t = "go" then 3 else if t = "api" then 2 else 0,
    fun k => if k = "api|go" then 2 else 0⟩

/-- Corpus snapshot with three tags of frequency 2 in a corpus of 4
articles, where the pair a,b and the pair a,c co-occur twice but the pair
b,c co-occurs once; here duplicating the tag a in the input reweights the
average. -/
def dupStats : CorpusStats :=
  ⟨4, fun t => if t = "a" then 2 else if t = "b" then 2 else if t = "c" then 2 else 0,
    fun k => if k = "a|b" then 2 else if k = "a|c" then 2 else
      if k = "b|c" then 1 else 0⟩

/- ############################################################
   Section 6: helper lemmas about the pair loop
   ############################################################ -/

/-- Per-pair contribution of the loop to `scoreSum`: zero for a skipped
pair, the PMI otherwise. -/
noncomputable def pmiContrib (stats : CorpusStats) (p : String × String) : ℝ :=
  if pairSkipped stats p then 0 else pmiOfPair stats p

/-- Per-pair contribution of the loop to `pairCount`: zero for a skipped
pair, one otherwise. -/
def countContrib (stats : CorpusStats) (p : String × String) : ℕ :=
  if pairSkipped stats p then 0 else 1

lemma foldl_pairStep_eq (stats : CorpusStats) :
    ∀ (ps : List (String × String)) (s : ℝ) (c : ℕ),
      ps.foldl (pairStep stats) (s, c) =
        (s + (ps.map (pmiContrib stats)).sum, c + (ps.map (countContrib stats)).sum)
  | [], s, c => by simp
  | p :: ps, s, c => by
    by_cases h : pairSkipped stats p
    · simp only [List.foldl_cons, pairStep, h, if_true, List.map_cons, List.sum_cons,
        foldl_pairStep_eq stats ps s c, pmiContrib, countContrib]
      simp [Prod.ext_iff]
    · simp only [List.foldl_cons, pairStep, h, if_false, List.map_cons, List.sum_cons,
        foldl_pairStep_eq stats ps _ _, pmiContrib, countContrib]
      simp [Prod.ext_iff, add_assoc]

lemma scoreLoop_fst (stats : CorpusStats) (tags : List String) :
    (scoreLoop stats tags).1 = ((strictPairs tags).map (pmiContrib stats)).sum := by
  rw [scoreLoop, foldl_pairStep_eq stats (strictPairs tags) 0 0]
  simp

lemma scoreLoop_snd (stats : CorpusStats) (tags : List String) :
    (scoreLoop stats tags).2 = ((strictPairs tags).map (countContrib stats)).sum := by
  rw [scoreLoop, foldl_pairStep_eq stats (strictPairs tags) 0 0]
  simp

lemma sum_map_pmiContrib (stats : CorpusStats) (ps : List (String × String)) :
    (ps.map (pmiContrib stats)).sum =
      ((ps.filter (fun p => !pairSkipped stats p)).map (pmiOfPair stats)).sum := by
  induction ps with
  | nil => rfl
  | cons p ps ih =>
    by_cases h : pairSkipped stats p <;>
      simp [pmiContrib, h, List.filter_cons, ih]

lemma sum_map_countContrib (stats : CorpusStats) (ps : List (String × String)) :
    (ps.map (countContrib stats)).sum =
      (ps.filter (fun p => !pairSkipped stats p)).length := by
  induction ps with
  | nil => rfl
  | cons p ps ih =>
    by_cases h : pairSkipped stats p <;>
      simp [countContrib, h, List.filter_cons, ih, Nat.add_comm]

lemma minString_comm (a b : String) : minString a b = minString b a := by
  unfold minString
  rcases lt_trichotomy a b with h | h | h
  · rw [if_pos h, if_neg (lt_asymm h)]
  · simp [h]
  · rw [if_neg (lt_asymm h), if_pos h]

lemma maxString_comm (a b : String) : maxString a b = maxString b a := by
  unfold maxString
  rcases lt_trichotomy a b with h | h | h
  · rw [if_neg (lt_asymm h), if_pos h]
  · simp [h]
  · rw [if_pos h, if_neg (lt_asymm h)]

lemma pairKey_comm (a b : String) : pairKey a b = pairKey b a := by
  rw [pairKey, pairKey, minString_comm, maxString_comm]

lemma pairSkipped_comm (stats : CorpusStats) (a b : String) :
    pairSkipped stats (a, b) = pairSkipped stats (b, a) := by
  simp only [pairSkipped, pairKey_comm a b]
  cases h1 : stats.tagFreq a == 0 <;> cases h2 : stats.tagFreq b == 0 <;> simp

lemma pmiOfPair_comm (stats : CorpusStats) (a b : String) :
    pmiOfPair stats (a, b) = pmiOfPair stats (b, a) := by
  simp only [pmiOfPair, pairKey_comm a b]
  ring_nf

lemma pmiContrib_comm (stats : CorpusStats) (a b : String) :
    pmiContrib stats (a, b) = pmiContrib stats (b, a) := by
  rw [pmiContrib, pmiContrib, pairSkipped_comm, pmiOfPair_comm]

lemma countContrib_comm (stats : CorpusStats) (a b : String) :
    countContrib stats (a, b) = countContrib stats (b, a) := by
  rw [countContrib, countContrib, pairSkipped_comm]

lemma sum_map_strictPairs_perm {α M : Type} [AddCommMonoid M]
    (f : α × α → M) (hf : ∀ a b, f (a, b) = f (b, a)) :
    ∀ {l l' : List α}, l.Perm l' →
      ((strictPairs l).map f).sum = ((strictPairs l').map f).sum := by
  intro l l' h
  induction h with
  | nil => rfl
  | cons x h ih =>
    simp only [strictPairs, List.map_append, List.sum_append, List.map_map, ih]
    congr 1
    exact (h.map fun u => f (x, u)).sum_eq
  | swap x y l =>
    simp only [strictPairs, List.map_append, List.sum_append, List.map_map,
      List.map_cons, List.sum_cons, Function.comp]
    rw [hf y x]
    abel
  | trans h1 h2 ih1 ih2 => exact ih1.trans ih2

lemma strictPairs_mem_ne {α : Type} :
    ∀ {l : List α}, l.Nodup → ∀ p ∈ strictPairs l, p.1 ≠ p.2
  | [], _, p, hp => by simp [strictPairs] at hp
  | x :: t, hnd, p, hp => by
    rw [List.nodup_cons] at hnd
    rw [strictPairs, List.mem_append] at hp
    rcases hp with hp | hp
    · rcases List.mem_map.1 hp with ⟨u, hu, rfl⟩
      intro hxy
      have hxu : x = u := hxy
      exact hnd.1 (hxu ▸ hu)
    · exact strictPairs_mem_ne hnd.2 p hp

/-- Pairs of the loop that pass the zero-factor test. -/
def keptPairs (stats : CorpusStats) (tags : List String) : List (String × String) :=
  (strictPairs tags).filter (fun p => !pairSkipped stats p)

lemma scoreFromStats_eq (stats : CorpusStats) (tags : List String) :
    scoreFromStats stats tags =
      if tags.length < 2 then 0
      else if (keptPairs stats tags).length = 0 then 0
      else ((keptPairs stats tags).map (pmiOfPair stats)).sum /
        ((keptPairs stats tags).length : ℝ) := by
  have hstats : (⟨stats.totalArticles, stats.tagFreq, stats.coOccur⟩ : CorpusStats)
      = stats := rfl
  simp only [scoreFromStats, CalculateTagRelationshipScore, hstats, keptPairs,
    scoreLoop_fst, scoreLoop_snd, sum_map_pmiContrib, sum_map_countContrib]

/- ############################################################
   Section 7: helper lemmas about the per-tag refresh body
   ############################################################ -/

lemma updateOneTag_id (tagCounts : ℕ → Option ℤ) (now : ℝ) (t : Tag) :
    (updateOneTag tagCounts now t).1.id = t.id := by
  simp only [updateOneTag]
  split
  · split <;> rfl
  · rfl

lemma updateOneTag_updatedAt (tagCounts : ℕ → Option ℤ) (now : ℝ) (t : Tag) :
    (updateOneTag tagCounts now t).1.updatedAt = t.updatedAt := by
  simp only [updateOneTag]
  split
  · rw [if_neg (lt_irrefl _)]
  · rfl

lemma updateOneTag_usageCount (tagCounts : ℕ → Option ℤ) (now : ℝ) (t : Tag) :
    (updateOneTag tagCounts now t).1.usageCount = (tagCounts t.id).getD 0 := by
  simp only [updateOneTag]
  split
  · rw [if_neg (lt_irrefl _)]
  · next h =>
    push_neg at h
    exact h.1.symm

lemma updateOneTag_trendingScore (tagCounts : ℕ → Option ℤ) (now : ℝ) (t : Tag) :
    (updateOneTag tagCounts now t).1.trendingScore =
        trendingScoreOf ((tagCounts t.id).getD 0) ((now - t.updatedAt) / 24) ∨
      (floatAlmostEqual
          (trendingScoreOf ((tagCounts t.id).getD 0) ((now - t.updatedAt) / 24))
          t.trendingScore ∧
        (updateOneTag tagCounts now t).1.trendingScore = t.trendingScore) := by
  simp only [updateOneTag]
  split
  · left
    rw [if_neg (lt_irrefl _)]
  · next h =>
    push_neg at h
    exact Or.inr ⟨h.2, rfl⟩

lemma updateOneTag_second_clean (tagCounts : ℕ → Option ℤ) (now : ℝ) (t : Tag) :
    (updateOneTag tagCounts now ((updateOneTag tagCounts now t).1)).2 = false := by
  have hid : (updateOneTag tagCounts now t).1.id = t.id := updateOneTag_id tagCounts now t
  have hupd : (updateOneTag tagCounts now t).1.updatedAt = t.updatedAt :=
    updateOneTag_updatedAt tagCounts now t
  have husage : (updateOneTag tagCounts now t).1.usageCount = (tagCounts t.id).getD 0 :=
    updateOneTag_usageCount tagCounts now t
  have htr := updateOneTag_trendingScore tagCounts now t
  conv_lhs => rw [updateOneTag]
  rw [hid, hupd, husage]
  rw [if_neg]
  push_neg
  refine ⟨rfl, ?_⟩
  rcases htr with htr | htr
  · rw [htr]
    unfold floatAlmostEqual
    simp
  · rw [htr.2]
    exact htr.1

lemma second_pass_filter_nil (tagCounts : ℕ → Option ℤ) (now : ℝ) :
    ∀ allTags : List Tag,
      ((refreshedTags tagCounts now allTags).map (updateOneTag tagCounts now)).filter
        (fun r => r.2) = []
  | [] => rfl
  | t :: ts => by
    simp only [refreshedTags, List.map_cons, List.filter_cons,
      updateOneTag_second_clean]
    simpa [refreshedTags] using second_pass_filter_nil tagCounts now ts

/- ############################################################
   Section 8: claim theorems about the trending updater
   ############################################################ -/

/-- Claim C2: for every tag processed by the refresh, the persisted usage
count is the published-usage mapping entry for its id (0 when absent), and
the persisted trending score is exactly
`newUsageCount * exp(-ageInDays / 7.0)` with `ageInDays = (now - updated_at) / 24`
whenever the row is rewritten — a row left untouched keeps a stored score
that the float-tolerant dirty test certifies is within `1e-6` of that
recomputed value (and its usage count already equals the recomputed one). -/
theorem refresh_recomputes_usage_and_trending (tagCounts : ℕ → Option ℤ) (now : ℝ)
    (t : Tag) :
    (updateOneTag tagCounts now t).1.usageCount = (tagCounts t.id).getD 0 ∧
      ((updateOneTag tagCounts now t).1.trendingScore =
          trendingScoreOf ((tagCounts t.id).getD 0) ((now - t.updatedAt) / 24) ∨
        (floatAlmostEqual
            (trendingScoreOf ((tagCounts t.id).getD 0) ((now - t.updatedAt) / 24))
            t.trendingScore ∧
          (updateOneTag tagCounts now t).1.trendingScore = t.trendingScore)) :=
  ⟨updateOneTag_usageCount tagCounts now t, updateOneTag_trendingScore tagCounts now t⟩

/-- Claim C3 (refuted — the code never restarts the decay clock): the
refresh body leaves `updated_at` unchanged for every tag, including tags
whose usage count strictly increased, because the guard
`newCount > currentTag.UsageCount` is evaluated after
`currentTag.UsageCount = newCount` has already been assigned and so always
compares `newCount` with itself. -/
theorem refresh_never_resets_updatedAt (tagCounts : ℕ → Option ℤ) (now : ℝ) (t : Tag) :
    (updateOneTag tagCounts now t).1.updatedAt = t.updatedAt :=
  updateOneTag_updatedAt tagCounts now t

/-- Claim C5: a second refresh pass over the tag store left by a first pass,
against the same published-usage snapshot and the same clock value, finds
no dirty tag: the `tagsToUpdate` slice of the second pass is empty, so the
second pass performs no write. -/
theorem refresh_idempotent_no_second_write (tagCounts : ℕ → Option ℤ) (now : ℝ)
    (allTags : List Tag) :
    updateTagUsageCounts (some tagCounts)
      (some (refreshedTags tagCounts now allTags)) now = [] := by
  simp only [updateTagUsageCounts, second_pass_filter_nil, List.map_nil]

/-- Claim C9: every failing corpus-statistics query makes the scorer return
`0.0` instead of propagating the error (whichever of the four queries
fails), and a failing published-usage or load-all-tags query makes the
refresh return with an empty write set, leaving every stored usage count
and trending score in place. -/
theorem scorer_and_updater_swallow_query_failures (totalRes : Option ℤ)
    (freqRes coRes : Option (String → ℤ)) (tags : List String) (n : ℤ)
    (f : String → ℤ) (allTagsRes : Option (List Tag))
    (tagCounts : ℕ → Option ℤ) (now : ℝ) :
    CalculateTagRelationshipScore none totalRes freqRes coRes = 0 ∧
      CalculateTagRelationshipScore (some tags) none freqRes coRes = 0 ∧
      CalculateTagRelationshipScore (some tags) (some n) none coRes = 0 ∧
      CalculateTagRelationshipScore (some tags) (some n) (some f) none = 0 ∧
      updateTagUsageCounts none allTagsRes now = [] ∧
      updateTagUsageCounts (some tagCounts) none now = [] := by
  refine ⟨rfl, ?_, ?_, ?_, rfl, rfl⟩ <;>
    · simp only [CalculateTagRelationshipScore]
      split <;> rfl

/- ############################################################
   Section 9: claim theorem about creation-time scoring order
   ############################################################ -/

/-- Claim C10: `CreateArticleVersion` computes the persisted relationship
score from the pre-insert state — the tag set of the article's previous
latest version and the corpus statistics before the new row exists and
before `latest_version_id` is repointed — even though after the call the
latest version carries the submitted tags; `CreateArticle` instead computes
the first version's score only after `latest_version_id` points at the new
version, so that score is over the submitted tags. -/
theorem creation_scoring_reads_previous_latest (statsOf : ArticleDB → CorpusStats)
    (db : ArticleDB) (reqTags : List String) (newId : ℕ) (nvn : ℤ) :
    (CreateArticleVersion statsOf db reqTags newId nvn).2.score =
        scoreFromStats (statsOf db) (GetTagsForArticle db) ∧
      GetTagsForArticle (CreateArticleVersion statsOf db reqTags newId nvn).1 =
        sortNames reqTags ∧
      (CreateArticle statsOf reqTags newId).2.score =
        scoreFromStats (statsOf (createArticleInsert reqTags newId))
          (GetTagsForArticle (createArticleInsert reqTags newId)) ∧
      GetTagsForArticle (createArticleInsert reqTags newId) = sortNames reqTags := by
  refine ⟨rfl, ?_, rfl, ?_⟩
  · simp [CreateArticleVersion, GetTagsForArticle]
  · simp [createArticleInsert, GetTagsForArticle]

/- ############################################################
   Section 10: claim theorems about the scorer's value
   ############################################################ -/

lemma spec_filter_eq_keptPairs (stats : CorpusStats) (tags : List String)
    (hnd : tags.Nodup) :
    (strictPairs tags).filter (fun p => p.1 != p.2 && specPairValid stats p.1 p.2) =
      keptPairs stats tags := by
  rw [keptPairs]
  apply List.filter_congr
  intro p hp
  have hne : p.1 ≠ p.2 := strictPairs_mem_ne hnd p hp
  have h1 : (p.1 != p.2) = true := by simpa using hne
  simp only [specPairValid, pairSkipped, Bool.not_or, h1, Bool.true_and]
  rfl

lemma specPairPMI_eq_pmiOfPair (stats : CorpusStats) :
    (fun p : String × String => specPairPMI stats p.1 p.2) = pmiOfPair stats := by
  funext p
  rfl

/-- Claim C1: on a duplicate-free tag list of an article's latest version
and a corpus snapshot with a positive total article count, the scorer
returns the arithmetic mean of `ln((coOccur/N) / ((freq(a)/N)*(freq(b)/N)))`
over exactly the unordered pairs of distinct tag names whose frequency and
co-occurrence factors are all nonzero — pairs with a zero factor count
toward neither the sum nor the divisor, and the result is exactly `0.0`
when every pair is skipped or fewer than 2 tags are present. -/
theorem score_is_mean_pmi_over_valid_pairs (stats : CorpusStats) (tags : List String)
    (hnd : tags.Nodup) (hN : 0 < stats.totalArticles) :
    scoreFromStats stats tags = specScore stats tags := by
  rw [scoreFromStats_eq, specScore]
  simp only [spec_filter_eq_keptPairs stats tags hnd, specPairPMI_eq_pmiOfPair]

theorem score_is_mean_pmi_over_valid_pairs_witness :
    scoreFromStats exampleStats ["api", "go"] = specScore exampleStats ["api", "go"] :=
  score_is_mean_pmi_over_valid_pairs exampleStats ["api", "go"] (by decide)
    (by norm_num [exampleStats])

/-- Claim C7: the scorer's value is invariant under reordering of the input
tag sequence — the canonical `(min, max)` pair key and the symmetric pair
guard and PMI make the loop's sum and count depend only on the multiset of
tags. -/
theorem score_invariant_under_reordering (stats : CorpusStats) (l l' : List String)
    (h : l.Perm l') : scoreFromStats stats l = scoreFromStats stats l' := by
  have hsum : ((strictPairs l).map (pmiContrib stats)).sum =
      ((strictPairs l').map (pmiContrib stats)).sum :=
    sum_map_strictPairs_perm _ (fun a b => pmiContrib_comm stats a b) h
  have hcnt : ((strictPairs l).map (countContrib stats)).sum =
      ((strictPairs l').map (countContrib stats)).sum :=
    sum_map_strictPairs_perm _ (fun a b => countContrib_comm stats a b) h
  have e1 : ((keptPairs stats l).map (pmiOfPair stats)).sum =
      ((keptPairs stats l').map (pmiOfPair stats)).sum := by
    rw [keptPairs, keptPairs, ← sum_map_pmiContrib, ← sum_map_pmiContrib]
    exact hsum
  have e2 : (keptPairs stats l).length = (keptPairs stats l').length := by
    rw [keptPairs, keptPairs, ← sum_map_countContrib, ← sum_map_countContrib]
    exact hcnt
  rw [scoreFromStats_eq, scoreFromStats_eq, h.length_eq, e1, e2]

theorem score_invariant_under_reordering_witness :
    scoreFromStats exampleStats ["go", "api"] = scoreFromStats exampleStats ["api", "go"] :=
  score_invariant_under_reordering exampleStats ["go", "api"] ["api", "go"]
    (List.Perm.swap "api" "go" [])

/- ############################################################
   Section 11: claim theorems about decay and the zero-total corpus
   ############################################################ -/

/-- Claim C8 counterexample: a tag with usage count 0 has recomputed
trending score `0 * exp(...) = 0` at every age, so advancing the age from
0 to 1 day does not strictly decrease the recomputed score. -/
theorem trending_decay_not_strict_at_zero_usage :
    ¬ trendingScoreOf 0 1 < trendingScoreOf 0 0 := by
  simp [trendingScoreOf]

/-- Claim C8 (amended): for a tag with a positive (unchanged) usage count,
the recomputed trending score `newCount * exp(-ageInDays / 7)` is strictly
decreasing in the elapsed age; with usage count 0 the score is identically
0 and only weakly decreasing. -/
theorem trending_decay_strictly_decreasing_pos_usage (c : ℤ) (hc : 0 < c)
    (a1 a2 : ℝ) (h : a1 < a2) : trendingScoreOf c a2 < trendingScoreOf c a1 := by
  unfold trendingScoreOf
  refine mul_lt_mul_of_pos_left ?_ (by exact_mod_cast hc)
  exact Real.exp_lt_exp.2 (by linarith)

theorem trending_decay_strictly_decreasing_pos_usage_witness :
    (0 : ℤ) < 1 ∧ (0 : ℝ) < 7 ∧ trendingScoreOf 1 7 < trendingScoreOf 1 0 :=
  ⟨by norm_num, by norm_num,
    trending_decay_strictly_decreasing_pos_usage 1 (by norm_num) 0 7 (by norm_num)⟩

/-- Claim C4 counterexample: with a zero total article count the scorer has
no early return — if the frequency and co-occurrence queries return nonzero
values for a pair (here constant 1 for two tags), the pair passes the
zero-factor test and the divisions `freq / totalArticlesF` are evaluated
with `totalArticlesF = 0`, contradicting the claim that no division by zero
is reached. -/
theorem scorer_divides_by_zero_on_zero_total :
    ¬ (CalculateTagRelationshipScore (some ["a", "b"]) (some 0)
          (some fun _ => 1) (some fun _ => 1) = 0 ∧
        ¬ divisionByZeroOnPath 0 (fun _ => 1) (fun _ => 1) ["a", "b"]) := by
  rintro ⟨-, h⟩
  exact h ⟨by decide, rfl, ⟨("a", "b"), by decide, by decide⟩⟩

/-- Claim C4 (amended): the code has no `N = 0` early return; but whenever
every pair of the loop carries a zero frequency or co-occurrence factor —
as in any snapshot consistent with an empty corpus — all pairs are skipped,
the scorer returns exactly `0.0`, and no division by zero is evaluated.
For inconsistent query results with nonzero factors the division by the
zero total is reached. -/
theorem scorer_zero_total_all_skipped_safe (tagFreq coOccurMap : String → ℤ)
    (tags : List String)
    (hskip : ∀ p ∈ strictPairs tags, pairSkipped ⟨0, tagFreq, coOccurMap⟩ p = true) :
    CalculateTagRelationshipScore (some tags) (some 0) (some tagFreq)
        (some coOccurMap) = 0 ∧
      ¬ divisionByZeroOnPath 0 tagFreq coOccurMap tags := by
  constructor
  · have hnil : keptPairs ⟨0, tagFreq, coOccurMap⟩ tags = [] := by
      rw [keptPairs, List.filter_eq_nil_iff]
      intro p hp
      simp [hskip p hp]
    have : CalculateTagRelationshipScore (some tags) (some 0) (some tagFreq)
        (some coOccurMap) = scoreFromStats ⟨0, tagFreq, coOccurMap⟩ tags := rfl
    rw [this, scoreFromStats_eq, hnil]
    simp
  · rintro ⟨-, -, p, hp, hfalse⟩
    rw [hskip p hp] at hfalse
    cases hfalse

theorem scorer_zero_total_all_skipped_safe_witness :
    CalculateTagRelationshipScore (some ["a", "b"]) (some 0) (some fun _ => 0)
        (some fun _ => 0) = 0 ∧
      ¬ divisionByZeroOnPath 0 (fun _ => 0) (fun _ => 0) ["a", "b"] :=
  scorer_zero_total_all_skipped_safe (fun _ => 0) (fun _ => 0) ["a", "b"] (by decide)

/- ############################################################
   Section 12: claim theorems about duplicate inputs
   ############################################################ -/

lemma filter_filter_and {α : Type} (p q : α → Bool) :
    ∀ l : List α, (l.filter p).filter q = l.filter (fun a => p a && q a)
  | [] => rfl
  | x :: l => by
    by_cases hp : p x
    · by_cases hq : q x <;>
        simp [List.filter_cons, hp, hq, filter_filter_and p q l]
    · simp [List.filter_cons, hp, filter_filter_and p q l]

lemma kept_iff_distinct_and_kept (stats : CorpusStats)
    (hself : ∀ a : String, stats.coOccur (pairKey a a) = 0) (p : String × String) :
    (!pairSkipped stats p) = ((p.1 != p.2) && !pairSkipped stats p) := by
  obtain ⟨x, y⟩ := p
  by_cases h : x = y
  · subst h
    simp [pairSkipped, hself x]
  · have h1 : (x != y) = true := by simpa using h
    rw [h1, Bool.true_and]

/-- Claim C6 (amended): duplicates in the input tag sequence are tolerated
without error; as long as the co-occurrence mapping carries no self-pair
key (the repository query filters `t1.name <> t2.name`, so it never does),
every index pair carrying the same name twice is skipped and contributes to
neither the sum nor the count, so the score equals the variant computed
over only the distinct-name index pairs.  Repeated occurrences of distinct
names are however counted once per index pair, so duplicates can reweight
the average — the result on a sequence with duplicates need not equal the
result on the distinct tag set. -/
theorem score_ignores_self_pairs (stats : CorpusStats)
    (hself : ∀ a : String, stats.coOccur (pairKey a a) = 0) (tags : List String) :
    scoreFromStats stats tags = scoreDistinctNamePairs stats tags := by
  have hlist : ((strictPairs tags).filter (fun p => p.1 != p.2)).filter
      (fun p => !pairSkipped stats p) = keptPairs stats tags := by
    rw [filter_filter_and, keptPairs]
    apply List.filter_congr
    intro p _
    exact (kept_iff_distinct_and_kept stats hself p).symm
  rw [scoreFromStats_eq, scoreDistinctNamePairs]
  simp only [scoreLoopDistinctNames,
    foldl_pairStep_eq stats ((strictPairs tags).filter (fun p => p.1 != p.2)) 0 0,
    sum_map_pmiContrib, sum_map_countContrib, hlist, zero_add]

theorem score_ignores_self_pairs_witness :
    scoreFromStats ⟨4, fun _ => 1, fun _ => 0⟩ ["x", "x", "y"] =
      scoreDistinctNamePairs ⟨4, fun _ => 1, fun _ => 0⟩ ["x", "x", "y"] :=
  score_ignores_self_pairs ⟨4, fun _ => 1, fun _ => 0⟩ (fun _ => rfl) ["x", "x", "y"]

lemma str_a_lt_b : ("a" : String) < "b" := by
  rw [String.lt_iff_toList_lt]; decide

lemma str_a_lt_c : ("a" : String) < "c" := by
  rw [String.lt_iff_toList_lt]; decide

lemma str_b_lt_c : ("b" : String) < "c" := by
  rw [String.lt_iff_toList_lt]; decide

lemma pairKey_self_str (a : String) : pairKey a a = a ++ "|" ++ a := by
  rw [pairKey, minString, maxString, if_neg (lt_irrefl a)]

lemma pairKey_of_lt {a b : String} (h : a < b) : pairKey a b = a ++ "|" ++ b := by
  rw [pairKey, minString, maxString, if_pos h, if_neg (lt_asymm h)]

lemma pairKey_aa : pairKey "a" "a" = "a|a" := pairKey_self_str "a"

lemma pairKey_ab : pairKey "a" "b" = "a|b" := pairKey_of_lt str_a_lt_b

lemma pairKey_ac : pairKey "a" "c" = "a|c" := pairKey_of_lt str_a_lt_c

lemma pairKey_bc : pairKey "b" "c" = "b|c" := pairKey_of_lt str_b_lt_c

lemma kept_dup : keptPairs dupStats ["a", "a", "b", "c"] =
    [("a", "b"), ("a", "c"), ("a", "b"), ("a", "c"), ("b", "c")] := by
  simp [keptPairs, strictPairs, pairSkipped, dupStats, pairKey_aa, pairKey_ab,
    pairKey_ac, pairKey_bc]

lemma kept_dist : keptPairs dupStats ["a", "b", "c"] =
    [("a", "b"), ("a", "c"), ("b", "c")] := by
  simp [keptPairs, strictPairs, pairSkipped, dupStats, pairKey_ab,
    pairKey_ac, pairKey_bc]

lemma pmi_ab : pmiOfPair dupStats ("a", "b") = Real.log 2 := by
  simp only [pmiOfPair, dupStats, pairKey_ab]
  norm_num

lemma pmi_ac : pmiOfPair dupStats ("a", "c") = Real.log 2 := by
  simp only [pmiOfPair, dupStats, pairKey_ac]
  norm_num

lemma pmi_bc : pmiOfPair dupStats ("b", "c") = 0 := by
  have h1 : dupStats.tagFreq "b" = 2 := by decide
  have h2 : dupStats.tagFreq "c" = 2 := by decide
  have h3 : dupStats.coOccur (pairKey "b" "c") = 1 := by rw [pairKey_bc]; decide
  have h4 : dupStats.totalArticles = 4 := by decide
  simp only [pmiOfPair, h1, h2, h3, h4]
  norm_num

lemma score_dup_val : scoreFromStats dupStats ["a", "a", "b", "c"] =
    4 * Real.log 2 / 5 := by
  rw [scoreFromStats_eq, kept_dup]
  norm_num [pmi_ab, pmi_ac, pmi_bc]
  ring

lemma score_dist_val : scoreFromStats dupStats ["a", "b", "c"] =
    2 * Real.log 2 / 3 := by
  rw [scoreFromStats_eq, kept_dist]
  norm_num [pmi_ab, pmi_ac, pmi_bc]
  ring

/-- Claim C6 counterexample: on the input sequence a,a,b,c the loop visits
the index pair a,b twice and a,c twice but b,c once adding five valid
pairs, so the score is the reweighted average `4 ln 2 / 5`, different from
the score `2 ln 2 / 3` of the distinct sequence a,b,c over the same corpus
snapshot — duplicates do reweight the average. -/
theorem score_changed_by_duplicates :
    scoreFromStats dupStats ["a", "a", "b", "c"] ≠
      scoreFromStats dupStats ["a", "b", "c"] := by
  rw [score_dup_val, score_dist_val]
  have hlog : 0 < Real.log 2 := Real.log_pos (by norm_num)
  intro h
  linarith
